import Mathlib

/-!
Verification of the `gcp-bigquery-billing-export` report pipeline
(`src/main.py`) against its specification.

The development shallowly embeds the program:

* Python `datetime.date` arithmetic becomes a `Date` structure with a
  day-by-day decrement (`predDate`, `subDays`); the module-level period
  globals (lines 29-33 of `main.py`) become functions of `today`.
* The two BigQuery cost queries become pure functions over lists of
  `UsageRecord`s.  BigQuery `TIMESTAMP` values are modelled as a calendar
  date plus a second-of-day; a date string appearing in a comparison with
  a `TIMESTAMP` is coerced to midnight UTC of that date, as BigQuery does.
  `FLOAT64` arithmetic is idealised as exact rational arithmetic; `ROUND`
  rounds half away from zero as documented for BigQuery.
* Nullable SQL fields are `Option`s and the tri-valued `IF(cache_hit !=
  true, _, _)` expression is modelled by `sqlNeqTrue`.
* The destination dataset is a map from table name to an optional list of
  stored rows (`none` = table does not exist).  `BQ.get_table` /
  the month-lookup query may raise (`BqError`); the idempotency gate
  `can_insert_data` and the orchestrator `main` are embedded with explicit
  error propagation.
-/

/-! ## Calendar dates (Python `datetime.date`) -/

/-- A proleptic-Gregorian calendar date, as manipulated by Python's
`datetime.date`. -/
structure Date where
  year : Nat
  month : Nat
  day : Nat
deriving DecidableEq

/-- Gregorian leap-year rule (as in Python's `calendar`). -/
def isLeapYear (y : Nat) : Bool :=
  y % 4 == 0 && (y % 100 != 0 || y % 400 == 0)

/-- Number of days of month `m` of year `y` (months `1`..`12`). -/
def daysInMonth (y m : Nat) : Nat :=
  if m = 2 then (if isLeapYear y then 29 else 28)
  else if m = 4 ∨ m = 6 ∨ m = 9 ∨ m = 11 then 30
  else 31

/-- The day before `dt` (Python `dt - timedelta(days=1)`). -/
def predDate (dt : Date) : Date :=
  if 1 < dt.day then ⟨dt.year, dt.month, dt.day - 1⟩
  else if 1 < dt.month then ⟨dt.year, dt.month - 1, daysInMonth dt.year (dt.month - 1)⟩
  else ⟨dt.year - 1, 12, 31⟩

/-- Python `dt - timedelta(days=n)`. -/
def subDays (dt : Date) : Nat → Date
  | 0 => dt
  | n + 1 => subDays (predDate dt) n

/-- A well-formed calendar date (what `datetime.date` can hold). -/
def validDate (dt : Date) : Prop :=
  1 ≤ dt.year ∧ 1 ≤ dt.month ∧ dt.month ≤ 12 ∧ 1 ≤ dt.day ∧ dt.day ≤ daysInMonth dt.year dt.month

instance (dt : Date) : Decidable (validDate dt) := by
  unfold validDate; infer_instance

/-- Left-pad the decimal representation of `n` with zeros to width `w`
(`strftime` zero padding). -/
def padNum (w n : Nat) : String :=
  let s := toString n
  String.mk (List.replicate (w - s.length) '0' ++ s.data)

/-- Python `d.strftime('%Y%m')` / BigQuery `FORMAT_DATE("%Y%m", d)`. -/
def formatYYYYMM (d : Date) : String :=
  padNum 4 d.year ++ padNum 2 d.month

/-- Python `d.strftime('%Y-%m-%d')` (the literal spliced into the SQL). -/
def formatYYYYMMDD (d : Date) : String :=
  padNum 4 d.year ++ "-" ++ padNum 2 d.month ++ "-" ++ padNum 2 d.day

/-! ## Period resolver (`main.py` lines 29-33) -/

/-- Line 30: `date_tc - timedelta(days=date_tc.day)`. -/
def date_last_day_previous_month (today : Date) : Date :=
  subDays today today.day

/-- Line 31: `date_last_day_previous_month - timedelta(days=date_last_day_previous_month.day-1)`. -/
def date_first_day_previous_month (today : Date) : Date :=
  subDays (date_last_day_previous_month today) ((date_last_day_previous_month today).day - 1)

/-- Line 33: `date_first_day_previous_month.strftime('%Y%m')`. -/
def str_last_month (today : Date) : String :=
  formatYYYYMM (date_first_day_previous_month today)

/-- The reporting window of one run (spec §3 "Period"). -/
structure Period where
  first_day : Date
  last_day : Date
  key : String
deriving DecidableEq

/-- The period resolver of the spec (§4.1), assembled from the module-level
date globals of `main.py`. -/
def resolve_previous_month (today : Date) : Period :=
  ⟨date_first_day_previous_month today, date_last_day_previous_month today, str_last_month today⟩

/-- The last day of the month preceding month `m` of year `y`
(stated independently of the program, for comparison). -/
def lastDayPrevMonthYM (y m : Nat) : Date :=
  if m = 1 then ⟨y - 1, 12, 31⟩ else ⟨y, m - 1, daysInMonth y (m - 1)⟩

/-- The first day of the month preceding month `m` of year `y`. -/
def firstDayPrevMonthYM (y m : Nat) : Date :=
  if m = 1 then ⟨y - 1, 12, 1⟩ else ⟨y, m - 1, 1⟩

/-! ## Timestamps and the usage-data source -/

/-- A BigQuery `TIMESTAMP`: a UTC calendar date plus a second of that day. -/
structure Timestamp where
  date : Date
  sec : Nat
deriving DecidableEq

/-- Chronological order on timestamps (year, month, day, second of day). -/
def tsLe (a b : Timestamp) : Prop :=
  a.date.year < b.date.year ∨
    (a.date.year = b.date.year ∧
      (a.date.month < b.date.month ∨
        (a.date.month = b.date.month ∧
          (a.date.day < b.date.day ∨
            (a.date.day = b.date.day ∧ a.sec ≤ b.sec)))))

instance (a b : Timestamp) : Decidable (tsLe a b) := by
  unfold tsLe; infer_instance

/-- Chronological order, as a boolean. -/
def tsLeB (a b : Timestamp) : Bool := decide (tsLe a b)

/-- BigQuery coerces a `'YYYY-MM-DD'` string compared against a `TIMESTAMP`
to midnight UTC of that date.  This is the value the spliced
`'{date.strftime('%Y-%m-%d')}'` literals of the two cost queries take. -/
def midnightUTC (d : Date) : Timestamp := ⟨d, 0⟩

/-- One row of `region-us.INFORMATION_SCHEMA.JOBS_BY_ORGANIZATION`
(the fields the two cost queries read).  `cache_hit` is nullable. -/
structure UsageRecord where
  job_type : String
  state : String
  start_time : Timestamp
  project_id : String
  user_email : String
  job_id : String
  total_bytes_billed : Nat
  total_bytes_processed : Nat
  cache_hit : Option Bool
deriving DecidableEq

/-! ## Shared pieces of the two cost queries -/

/-- `DECLARE gb_divisor INT64 DEFAULT 1024*1024*1024;` -/
def gb_divisor : ℚ := 1024 * 1024 * 1024

/-- `DECLARE tb_divisor INT64 DEFAULT gb_divisor*1024;` -/
def tb_divisor : ℚ := gb_divisor * 1024

/-- `DECLARE cost_per_tb_in_dollar INT64 DEFAULT 5;` -/
def cost_per_tb_in_dollar : ℚ := 5

/-- `DECLARE cost_factor FLOAT64 DEFAULT cost_per_tb_in_dollar / tb_divisor;` -/
def cost_factor : ℚ := cost_per_tb_in_dollar / tb_divisor

/-- Round a rational to the nearest integer, halves away from zero
(BigQuery `ROUND(x)` semantics). -/
def roundAwayFromZero (q : ℚ) : ℤ :=
  if 0 ≤ q then ⌊q + 1 / 2⌋ else -⌊1 / 2 - q⌋

/-- BigQuery `ROUND(x, n)`. -/
def roundTo (n : ℕ) (q : ℚ) : ℚ :=
  (roundAwayFromZero (q * 10 ^ n) : ℚ) / 10 ^ n

/-- SQL tri-valued `cache_hit != true`: `NULL` stays `NULL`. -/
def sqlNeqTrue : Option Bool → Option Bool :=
  fun b => b.map (fun x => !x)

/-- `IF(cache_hit != true, ROUND(total_bytes_processed * cost_factor,4),0)`:
the `IF` takes its first branch only when the condition is `TRUE` (not when
it is `FALSE` or `NULL`). -/
def cost_in_dollar (r : UsageRecord) : ℚ :=
  if sqlNeqTrue r.cache_hit = some true
  then roundTo 4 ((r.total_bytes_processed : ℚ) * cost_factor)
  else 0

/-- `FORMAT_DATE("%Y%m", date(start_time))`. -/
def month_of (r : UsageRecord) : String :=
  formatYYYYMM r.start_time.date

/-- The `WHERE` filter shared by both cost queries:
`job_type = 'QUERY' AND state = 'DONE' AND start_time BETWEEN
'{first}' AND '{last}'`, the date literals being coerced to midnight UTC. -/
def filteredRecords (recs : List UsageRecord) (first last : Date) : List UsageRecord :=
  recs.filter (fun r =>
    r.job_type == "QUERY" && r.state == "DONE" &&
      tsLeB (midnightUTC first) r.start_time && tsLeB r.start_time (midnightUTC last))

/-! ## The per-query detail report (`generate_bq_jobs_costs_detail`) -/

/-- One result row of the detail query (`main.py` lines 78-84). -/
structure DetailRow where
  project_id : String
  month : String
  start_time : Timestamp
  user_email : String
  job_id : String
  bytes_processed_in_gb : ℚ
  cost_in_dollar : ℚ
deriving DecidableEq

/-- The `SELECT` list of the detail query applied to one source row. -/
def mkDetailRow (r : UsageRecord) : DetailRow :=
  ⟨r.project_id, month_of r, r.start_time, r.user_email, r.job_id,
    roundTo 2 ((r.total_bytes_billed : ℚ) / gb_divisor), cost_in_dollar r⟩

/-- Byte-wise comparison of strings (BigQuery `ORDER BY` on `STRING`). -/
def chListLe : List Char → List Char → Bool
  | [], _ => true
  | _ :: _, [] => false
  | a :: as, b :: bs => a.toNat < b.toNat || (a.toNat == b.toNat && chListLe as bs)

/-- String order used by `ORDER BY`. -/
def strLe (s t : String) : Bool := chListLe s.data t.data

/-- Lexicographic combination of two (total pre)orders:
`a` before `b` when `la a b` strictly, or `la`-ties broken by `lb`. -/
def lexCombine {α : Type} (la lb : α → α → Bool) (a b : α) : Bool :=
  la a b && (!(la b a) || lb a b)

/-- `ORDER BY project_id, start_time, user_email` as a relation on rows. -/
def detailLeB : DetailRow → DetailRow → Bool :=
  lexCombine (fun a b => strLe a.project_id b.project_id)
    (lexCombine (fun a b => tsLeB a.start_time b.start_time)
      (fun a b => strLe a.user_email b.user_email))

/-- The `ORDER BY` key order as a proposition. -/
def detailLe (a b : DetailRow) : Prop := detailLeB a b = true

instance (a b : DetailRow) : Decidable (detailLe a b) := by
  unfold detailLe; infer_instance

/-- `generate_bq_jobs_costs_detail` (`main.py` lines 69-94): filter, project
each job to its row, and sort by `(project_id, start_time, user_email)`. -/
def generate_bq_jobs_costs_detail (recs : List UsageRecord) (first last : Date) : List DetailRow :=
  List.insertionSort detailLe ((filteredRecords recs first last).map mkDetailRow)

/-! ## The per-project summary report (`generate_bq_jobs_costs_per_project`) -/

/-- One result row of the per-project query (`main.py` lines 45-50). -/
structure PerProjectRow where
  project_id : String
  user_email : String
  month : String
  num_queries : Nat
  bytes_processed_in_gb : ℚ
  cost_in_dollar : ℚ
deriving DecidableEq

/-- The `GROUP BY user_email, project_id, month` key of a source row. -/
def recKey (r : UsageRecord) : String × String × String :=
  (r.project_id, r.user_email, month_of r)

/-- `generate_bq_jobs_costs_per_project` (`main.py` lines 36-66): group the
filtered rows by `(project_id, user_email, month)` and aggregate.  SQL does
not fix the order of the groups; they are listed here by grouping key. -/
def generate_bq_jobs_costs_per_project (recs : List UsageRecord) (first last : Date) :
    List PerProjectRow :=
  let fr := filteredRecords recs first last
  ((fr.map recKey).dedup).map (fun k =>
    let g := fr.filter (fun r => decide (recKey r = k))
    ⟨k.1, k.2.1, k.2.2, g.length,
      roundTo 2 ((g.map (fun r => (r.total_bytes_billed : ℚ))).sum / gb_divisor),
      roundTo 4 ((g.map cost_in_dollar).sum)⟩)

/-- The group of filtered source rows a summary row was computed from,
recovered from the row's own key columns. -/
def groupOf (recs : List UsageRecord) (first last : Date) (row : PerProjectRow) :
    List UsageRecord :=
  (filteredRecords recs first last).filter
    (fun r => decide (recKey r = (row.project_id, row.user_email, row.month)))

/-! ## The storage-usage report (`generate_storage_usage`) -/

/-- An error raised by a BigQuery client call: `google.cloud.exceptions.NotFound`
or any other exception. -/
inductive BqError where
  | notFound
  | otherErr (msg : String)
deriving DecidableEq

/-- One row of the storage usage report (`main.py` line 122's columns). -/
structure StorageRow where
  project : String
  month : String
  cloud_storage_bytes : Nat
  bigquery_storage_bytes : Nat
deriving DecidableEq

/-- Line 105: `project_id + '.' + project + '.' + main_table_name`. -/
def mkTableId (pid proj mtn : String) : String :=
  pid ++ "." ++ proj ++ "." ++ mtn

/-- `generate_storage_usage` (`main.py` lines 97-125).  `tables` is the
metadata-read interface (`BQ.get_table(...).num_bytes`, which may raise) and
`blobs` the blob-listing interface (sizes of the blobs under each project
prefix).  Any exception during the scan aborts the whole call. -/
def generate_storage_usage (tables : String → Except BqError Nat)
    (blobs : String → List Nat) (pid mtn : String) (projects : List String)
    (key : String) : Except BqError (List StorageRow) :=
  match projects with
  | [] => .ok []
  | p :: rest =>
    match tables (mkTableId pid p mtn) with
    | .error e => .error e
    | .ok bq_project_size =>
      match generate_storage_usage tables blobs pid mtn rest key with
      | .error e => .error e
      | .ok rows => .ok (⟨p, key, (blobs p).sum, bq_project_size⟩ :: rows)

/-! ## The destination dataset, the idempotency gate and the report store -/

/-- A cell of a stored destination row. -/
inductive Cell where
  | str (s : String)
  | num (n : Nat)
  | rat (q : ℚ)
  | time (t : Timestamp)
deriving DecidableEq

/-- One row of a destination table: its `month` column plus the remaining
columns. -/
structure Row where
  month : String
  cells : List Cell
deriving DecidableEq

/-- The state of the billing dataset: each table name is either absent
(`none`) or holds a list of rows. -/
abbrev Dest := String → Option (List Row)

/-- The idempotency gate on a fault-free run: true when the table does not
exist, or exists with no row whose `month` equals the period key
(`can_insert_data`, `main.py` lines 128-159). -/
def can_insert (d : Dest) (table_name key : String) : Bool :=
  match d table_name with
  | none => true
  | some rows => rows.countP (fun r => r.month == key) == 0

/-- `BQ.get_table(table_id)` inside the gate: raises `NotFound` when the
table is absent; `fault` injects any other failure of the call. -/
def bq_get_table (d : Dest) (fault : Option BqError) (table_id : String) :
    Except BqError (List Row) :=
  match fault with
  | some e => .error e
  | none =>
    match d table_id with
    | none => .error .notFound
    | some rows => .ok rows

/-- The month-lookup `SELECT 1 FROM table WHERE month = '{key}'` inside the
gate, returning `result.total_rows`; `fault` injects a failure. -/
def bq_query_month (d : Dest) (fault : Option BqError) (table_id key : String) :
    Except BqError Nat :=
  match fault with
  | some e => .error e
  | none =>
    match d table_id with
    | none => .error .notFound
    | some rows => .ok (rows.countP (fun r => r.month == key))

/-- `can_insert_data` (`main.py` lines 128-159) with explicit exception flow:
the `try` block spans the existence check and the month-lookup query, and
only `NotFound` is caught (and turned into `True`); any other exception of
either call propagates. -/
def can_insert_data (d : Dest) (gtFault qFault : Option BqError)
    (table_name key : String) : Except BqError Bool :=
  match bq_get_table d gtFault table_name with
  | .error .notFound => .ok true
  | .error e => .error e
  | .ok _ =>
    match bq_query_month d qFault table_name key with
    | .error .notFound => .ok true
    | .error e => .error e
    | .ok total_rows => .ok (total_rows == 0)

/-- `store_df_in_bq` (`main.py` lines 162-171): `to_gbq(..., if_exists="append")`
appends to the table, creating it when absent. -/
def store_df_in_bq (d : Dest) (table_name : String) (rows : List Row) : Dest :=
  fun n => if n = table_name then some (((d table_name).getD []) ++ rows) else d n

/-! ## The orchestrator (`main`, `main.py` lines 174-188) -/

/-- One gate-then-generate-then-store step for a report whose generation
already succeeded. -/
def stepOne (d : Dest) (table_name : String) (rows : List Row) (key : String) : Dest :=
  if can_insert d table_name key then store_df_in_bq d table_name rows else d

/-- The orchestrator loop over `(table_name, generator result)` pairs: the
gate is consulted first; only if it allows is the generator invoked, and an
exception from the generator aborts the run with the destination unchanged
since the last successful store. -/
def run_reports (d : Dest) (reps : List (String × Except BqError (List Row)))
    (key : String) : Dest × Option BqError :=
  match reps with
  | [] => (d, none)
  | (table_name, gen) :: rest =>
    if can_insert d table_name key then
      match gen with
      | .error e => (d, some e)
      | .ok rows => run_reports (store_df_in_bq d table_name rows) rest key
    else run_reports d rest key

/-- The fault-free orchestrator loop (all generators returned rows). -/
def run_pure (d : Dest) (reps : List (String × List Row)) (key : String) : Dest :=
  match reps with
  | [] => d
  | (table_name, rows) :: rest => run_pure (stepOne d table_name rows key) rest key

/-- A storage row as stored in the destination table. -/
def storageRowToRow (r : StorageRow) : Row :=
  ⟨r.month, [.str r.project, .num r.cloud_storage_bytes, .num r.bigquery_storage_bytes]⟩

/-- A detail row as stored in the destination table. -/
def detailRowToRow (r : DetailRow) : Row :=
  ⟨r.month, [.str r.project_id, .time r.start_time, .str r.user_email,
    .str r.job_id, .rat r.bytes_processed_in_gb, .rat r.cost_in_dollar]⟩

/-- A per-project summary row as stored in the destination table. -/
def perProjectRowToRow (r : PerProjectRow) : Row :=
  ⟨r.month, [.str r.project_id, .str r.user_email, .num r.num_queries,
    .rat r.bytes_processed_in_gb, .rat r.cost_in_dollar]⟩

/-- The fixed report dictionary of `main` (insertion order preserved), with
each generator already applied to the upstream data. -/
def mainReports (recs : List UsageRecord) (tables : String → Except BqError Nat)
    (blobs : String → List Nat) (pid mtn : String) (projects : List String)
    (today : Date) : List (String × Except BqError (List Row)) :=
  [("storage_usage",
      (generate_storage_usage tables blobs pid mtn projects (str_last_month today)).map
        (List.map storageRowToRow)),
   ("bq_jobs_costs_detail",
      .ok ((generate_bq_jobs_costs_detail recs (date_first_day_previous_month today)
        (date_last_day_previous_month today)).map detailRowToRow)),
   ("bq_jobs_costs_per_project",
      .ok ((generate_bq_jobs_costs_per_project recs (date_first_day_previous_month today)
        (date_last_day_previous_month today)).map perProjectRowToRow))]

namespace Orchestrator

/-- `main` (`main.py` lines 174-188): drive the three reports through
gate → generate → store against destination state `d`, returning the final
destination state and the first uncaught exception, if any. -/
def main (recs : List UsageRecord) (tables : String → Except BqError Nat)
    (blobs : String → List Nat) (pid mtn : String) (projects : List String)
    (today : Date) (d : Dest) : Dest × Option BqError :=
  run_reports d (mainReports recs tables blobs pid mtn projects today) (str_last_month today)

end Orchestrator

/-- The three reports of `main` with all generation already succeeded
(`srows` the storage scan's rows): the pure payload `run_reports` processes
on a fault-free run. -/
def mainPureReports (recs : List UsageRecord) (srows : List StorageRow)
    (first last : Date) : List (String × List Row) :=
  [("storage_usage", srows.map storageRowToRow),
   ("bq_jobs_costs_detail",
     (generate_bq_jobs_costs_detail recs first last).map detailRowToRow),
   ("bq_jobs_costs_per_project",
     (generate_bq_jobs_costs_per_project recs first last).map perProjectRowToRow)]

/-! ## Concrete inputs used by witnesses and counterexamples -/

/-- A destination with one table `"t"` holding one row of month `"202402"`. -/
def destEx : Dest := fun n => if n = "t" then some [⟨"202402", []⟩] else none

/-- An empty destination dataset: no table exists yet. -/
def destEmpty : Dest := fun _ => none

/-- A job that ran at noon of 2024-02-29, the last day of the period. -/
def recNoon : UsageRecord :=
  ⟨"QUERY", "DONE", ⟨⟨2024, 2, 29⟩, 43200⟩, "p", "u", "j", 0, 1099511627776, some false⟩

/-- A 1 TiB job inside the period (2024-02-10, 01:00 UTC). -/
def recMid : UsageRecord :=
  ⟨"QUERY", "DONE", ⟨⟨2024, 2, 10⟩, 3600⟩, "p", "u", "j", 5, 1099511627776, some false⟩

/-- A second 1 TiB job of the same project, user and month. -/
def recMid2 : UsageRecord :=
  ⟨"QUERY", "DONE", ⟨⟨2024, 2, 11⟩, 0⟩, "p", "u", "j2", 7, 1099511627776, some false⟩

/-- A cache hit over 1 TiB. -/
def recCached : UsageRecord :=
  ⟨"QUERY", "DONE", ⟨⟨2024, 2, 12⟩, 60⟩, "p", "u", "j3", 0, 1099511627776, some true⟩

/-- A job whose `cache_hit` column is SQL `NULL`, over 1 TiB. -/
def recNullCache : UsageRecord :=
  ⟨"QUERY", "DONE", ⟨⟨2024, 2, 13⟩, 60⟩, "p", "u", "j4", 0, 1099511627776, none⟩

/-- The summary row produced for the group `{recMid, recMid2}` (its fields
written exactly as the per-project query computes them). -/
def ppRowEx : PerProjectRow :=
  ⟨"p", "u", "202402", 2, roundTo 2 (((5 : ℚ) + ((7 : ℚ) + 0)) / gb_divisor),
    roundTo 4 (cost_in_dollar recMid + (cost_in_dollar recMid2 + 0))⟩

/-- A metadata-read interface on which every table lookup succeeds. -/
def tablesEx : String → Except BqError Nat := fun _ => .ok 1000

/-- A metadata-read interface on which every table lookup raises `NotFound`. -/
def tablesMissing : String → Except BqError Nat := fun _ => .error .notFound

/-- Three blobs of sizes 10, 20, 30 under every prefix. -/
def blobsEx : String → List Nat := fun _ => [10, 20, 30]

/-! ## Date arithmetic lemmas for the period resolver -/

theorem daysInMonth_pos (y m : Nat) : 1 ≤ daysInMonth y m := by
  unfold daysInMonth
  split
  · split <;> omega
  · split <;> omega

theorem predDate_first (y m : Nat) (hm : 1 ≤ m) :
    predDate ⟨y, m, 1⟩ = lastDayPrevMonthYM y m := by
  unfold predDate lastDayPrevMonthYM
  by_cases h1 : m = 1
  · subst h1; norm_num
  · have h2 : 1 < m := by omega
    simp [h1, h2]

theorem subDays_day (y m : Nat) (hm : 1 ≤ m) :
    ∀ k, subDays ⟨y, m, k + 1⟩ (k + 1) = lastDayPrevMonthYM y m := by
  intro k
  induction k with
  | zero =>
    show subDays (predDate ⟨y, m, 1⟩) 0 = _
    rw [predDate_first y m hm]
    rfl
  | succ n ih =>
    have hpred : predDate ⟨y, m, n + 2⟩ = ⟨y, m, n + 1⟩ := by
      unfold predDate; simp
    show subDays (predDate ⟨y, m, n + 2⟩) (n + 1) = _
    rw [hpred]
    exact ih

theorem subDays_to_first (y m : Nat) : ∀ k, subDays ⟨y, m, k + 1⟩ k = ⟨y, m, 1⟩ := by
  intro k
  induction k with
  | zero => rfl
  | succ n ih =>
    have hpred : predDate ⟨y, m, n + 2⟩ = ⟨y, m, n + 1⟩ := by
      unfold predDate; simp
    show subDays (predDate ⟨y, m, n + 2⟩) n = _
    rw [hpred]
    exact ih

theorem last_day_eq (today : Date) (hv : validDate today) :
    date_last_day_previous_month today = lastDayPrevMonthYM today.year today.month := by
  have hm : 1 ≤ today.month := hv.2.1
  have hd : 1 ≤ today.day := hv.2.2.2.1
  obtain ⟨y, m, d⟩ := today
  replace hm : 1 ≤ m := hm
  replace hd : 1 ≤ d := hd
  obtain ⟨k, rfl⟩ : ∃ k, d = k + 1 := ⟨d - 1, by omega⟩
  exact subDays_day y m hm k

theorem first_day_eq (today : Date) (hv : validDate today) :
    date_first_day_previous_month today = firstDayPrevMonthYM today.year today.month := by
  unfold date_first_day_previous_month
  rw [last_day_eq today hv]
  by_cases h1 : today.month = 1
  · simp only [lastDayPrevMonthYM, firstDayPrevMonthYM, h1, if_true]
    show subDays ⟨today.year - 1, 12, 30 + 1⟩ 30 = _
    exact subDays_to_first _ 12 30
  · simp only [lastDayPrevMonthYM, firstDayPrevMonthYM, h1, if_false]
    have hD := daysInMonth_pos today.year (today.month - 1)
    obtain ⟨k, hk⟩ : ∃ k, daysInMonth today.year (today.month - 1) = k + 1 :=
      ⟨daysInMonth today.year (today.month - 1) - 1, by omega⟩
    rw [hk]
    show subDays ⟨today.year, today.month - 1, k + 1⟩ (k + 1 - 1) = _
    rw [Nat.add_sub_cancel]
    exact subDays_to_first _ _ k

theorem formatYYYYMM_congr {a b : Date} (h1 : a.year = b.year) (h2 : a.month = b.month) :
    formatYYYYMM a = formatYYYYMM b := by
  unfold formatYYYYMM
  rw [h1, h2]

theorem ts_between_same_month (Y M d1 d2 : Nat) (ts : Timestamp)
    (h1 : tsLe (midnightUTC ⟨Y, M, d1⟩) ts) (h2 : tsLe ts (midnightUTC ⟨Y, M, d2⟩)) :
    ts.date.year = Y ∧ ts.date.month = M := by
  unfold tsLe midnightUTC at h1 h2
  simp only at h1 h2
  omega

/-- Any timestamp admitted by the cost queries' `BETWEEN` filter lies in the
month of the period, so its `month` column equals the period key. -/
theorem month_sandwich (today : Date) (hv : validDate today) (ts : Timestamp)
    (h1 : tsLe (midnightUTC (date_first_day_previous_month today)) ts)
    (h2 : tsLe ts (midnightUTC (date_last_day_previous_month today))) :
    formatYYYYMM ts.date = str_last_month today := by
  rw [first_day_eq today hv] at h1
  rw [last_day_eq today hv] at h2
  unfold str_last_month
  rw [first_day_eq today hv]
  by_cases hm1 : today.month = 1
  · simp only [firstDayPrevMonthYM, lastDayPrevMonthYM, hm1, if_true] at h1 h2 ⊢
    have h := ts_between_same_month (today.year - 1) 12 1 31 ts h1 h2
    exact formatYYYYMM_congr h.1 h.2
  · simp only [firstDayPrevMonthYM, lastDayPrevMonthYM, hm1, if_false] at h1 h2 ⊢
    have h := ts_between_same_month today.year (today.month - 1) 1
      (daysInMonth today.year (today.month - 1)) ts h1 h2
    exact formatYYYYMM_congr h.1 h.2

/-! ## C3: the period resolver -/

/-- C3 (confirmed): for every valid calendar date `today` the period resolver
returns the last day of the previous month as `last_day`, the first day of
the previous month as `first_day`, and that first day formatted `YYYYMM` as
`key`; in particular today = 2024-03-15 gives (2024-02-01, 2024-02-29,
"202402") and today = 2024-01-01 gives (2023-12-01, 2023-12-31, "202312"). -/
theorem period_resolver_correct :
    (∀ today : Date, validDate today →
      resolve_previous_month today =
        ⟨firstDayPrevMonthYM today.year today.month,
         lastDayPrevMonthYM today.year today.month,
         formatYYYYMM (firstDayPrevMonthYM today.year today.month)⟩) ∧
    resolve_previous_month ⟨2024, 3, 15⟩ = ⟨⟨2024, 2, 1⟩, ⟨2024, 2, 29⟩, "202402"⟩ ∧
    resolve_previous_month ⟨2024, 1, 1⟩ = ⟨⟨2023, 12, 1⟩, ⟨2023, 12, 31⟩, "202312"⟩ := by
  refine ⟨?_, by decide, by decide⟩
  intro t hv
  unfold resolve_previous_month str_last_month
  rw [first_day_eq t hv, last_day_eq t hv]

/-- Witness for C3 at today = 2024-03-15. -/
theorem period_resolver_correct_witness :
    validDate ⟨2024, 3, 15⟩ ∧
      resolve_previous_month ⟨2024, 3, 15⟩ =
        ⟨firstDayPrevMonthYM 2024 3, lastDayPrevMonthYM 2024 3,
          formatYYYYMM (firstDayPrevMonthYM 2024 3)⟩ :=
  ⟨by decide, period_resolver_correct.1 ⟨2024, 3, 15⟩ (by decide)⟩

/-! ## C4 and C10: the per-query cost formula -/

theorem cost_factor_value : cost_factor = 5 / 2 ^ 40 := by
  norm_num [cost_factor, cost_per_tb_in_dollar, tb_divisor, gb_divisor]

/-- C4 (confirmed): for a record whose `cache_hit` is the boolean true the
per-query cost is 0 regardless of `bytes_processed`; for a record whose
`cache_hit` is the boolean false it is `bytes_processed * (5 / 2^40)` rounded
to 4 decimals.  Both generators price a record through the same
`cost_in_dollar` expression (`mkDetailRow` exposes it for the detail
report; the summary sums it, see `per_project_rounding_order`). -/
theorem cost_formula_cache_hit (r : UsageRecord) :
    (r.cache_hit = some true → cost_in_dollar r = 0) ∧
    (r.cache_hit = some false →
      cost_in_dollar r = roundTo 4 ((r.total_bytes_processed : ℚ) * (5 / 2 ^ 40))) ∧
    (mkDetailRow r).cost_in_dollar = cost_in_dollar r := by
  refine ⟨fun h => ?_, fun h => ?_, rfl⟩
  · unfold cost_in_dollar sqlNeqTrue
    rw [h]
    simp
  · unfold cost_in_dollar sqlNeqTrue
    rw [h, cost_factor_value]
    simp

/-- Witness for C4: a 1 TiB cache hit costs 0, a 1 TiB cache miss costs the
rounded formula value. -/
theorem cost_formula_cache_hit_witness :
    (recCached.cache_hit = some true ∧ cost_in_dollar recCached = 0) ∧
    (recMid.cache_hit = some false ∧
      cost_in_dollar recMid = roundTo 4 ((recMid.total_bytes_processed : ℚ) * (5 / 2 ^ 40))) :=
  ⟨⟨rfl, (cost_formula_cache_hit recCached).1 rfl⟩,
   ⟨rfl, (cost_formula_cache_hit recMid).2.1 rfl⟩⟩

/-- C10 (confirmed): when `cache_hit` is SQL `NULL`, the predicate
`cache_hit != true` evaluates to `NULL`, the `IF` takes its else branch, and
the record is priced at 0 regardless of `bytes_processed`, in both cost
generators. -/
theorem cost_formula_null_cache_hit (r : UsageRecord) (h : r.cache_hit = none) :
    sqlNeqTrue r.cache_hit = none ∧ cost_in_dollar r = 0 ∧
    (mkDetailRow r).cost_in_dollar = 0 := by
  have h1 : sqlNeqTrue r.cache_hit = none := by
    unfold sqlNeqTrue; rw [h]; rfl
  have h2 : cost_in_dollar r = 0 := by
    unfold cost_in_dollar
    rw [h1]
    simp
  exact ⟨h1, h2, h2⟩

/-- Witness for C10 at a NULL-`cache_hit` record over 1 TiB. -/
theorem cost_formula_null_cache_hit_witness :
    recNullCache.cache_hit = none ∧
      sqlNeqTrue recNullCache.cache_hit = none ∧ cost_in_dollar recNullCache = 0 ∧
      (mkDetailRow recNullCache).cost_in_dollar = 0 :=
  ⟨rfl, cost_formula_null_cache_hit recNullCache rfl⟩

/-! ## C5: rounding-then-aggregation order in the per-project summary -/

/-- C5 (confirmed): every row of the per-project summary carries as
`cost_in_dollar` the rounded-to-4-decimals sum of the already-rounded
per-query costs of its group (`cost_in_dollar` per record rounds to 4
decimals before the summation), and as `bytes_processed_in_gb` the group's
summed bytes divided by `2^30` and then rounded to 2 decimals. -/
theorem per_project_rounding_order (recs : List UsageRecord) (first last : Date)
    (row : PerProjectRow) (h : row ∈ generate_bq_jobs_costs_per_project recs first last) :
    row.cost_in_dollar =
      roundTo 4 (((groupOf recs first last row).map cost_in_dollar).sum) ∧
    row.bytes_processed_in_gb =
      roundTo 2 (((groupOf recs first last row).map
        (fun r => (r.total_bytes_billed : ℚ))).sum / gb_divisor) := by
  simp only [generate_bq_jobs_costs_per_project, List.mem_map] at h
  obtain ⟨k, hk, rfl⟩ := h
  exact ⟨rfl, rfl⟩

/-- Witness for C5: two 1 TiB cache misses of one project/user/month; the
summary row's cost is `round(5.0000 + 5.0000, 4) = 10`. -/
theorem per_project_rounding_order_witness :
    ppRowEx ∈ generate_bq_jobs_costs_per_project [recMid, recMid2] ⟨2024, 2, 1⟩ ⟨2024, 2, 29⟩ ∧
    ppRowEx.cost_in_dollar =
      roundTo 4 (((groupOf [recMid, recMid2] ⟨2024, 2, 1⟩ ⟨2024, 2, 29⟩ ppRowEx).map
        cost_in_dollar).sum) ∧
    ppRowEx.cost_in_dollar = 10 := by
  have hmem : ppRowEx ∈ generate_bq_jobs_costs_per_project [recMid, recMid2]
      ⟨2024, 2, 1⟩ ⟨2024, 2, 29⟩ := List.Mem.head _
  refine ⟨hmem,
    (per_project_rounding_order [recMid, recMid2] ⟨2024, 2, 1⟩ ⟨2024, 2, 29⟩ ppRowEx hmem).1, ?_⟩
  norm_num [ppRowEx, cost_in_dollar, recMid, recMid2, sqlNeqTrue, roundTo,
    roundAwayFromZero, cost_factor, cost_per_tb_in_dollar, tb_divisor, gb_divisor]

/-! ## C6: the shared record filter of the two cost reports -/

/-- C6 as amended (the claim's "through the end of last_day" fails, see the
counterexample): a record is included in both cost reports iff its
`job_type` is `'QUERY'`, its `state` is `'DONE'`, and its `start_time` lies
between midnight UTC of `first_day` and midnight UTC of `last_day`
inclusive — the spliced `'YYYY-MM-DD'` literals of `BETWEEN` are coerced to
midnight `TIMESTAMP`s, so times strictly after 00:00:00 of `last_day` are
excluded. -/
theorem cost_reports_inclusion (recs : List UsageRecord) (first last : Date)
    (r : UsageRecord) (h : r ∈ recs) :
    (r ∈ filteredRecords recs first last ↔
      (r.job_type = "QUERY" ∧ r.state = "DONE" ∧
        tsLe (midnightUTC first) r.start_time ∧ tsLe r.start_time (midnightUTC last))) ∧
    (r ∈ filteredRecords recs first last →
      mkDetailRow r ∈ generate_bq_jobs_costs_detail recs first last ∧
      recKey r ∈ (generate_bq_jobs_costs_per_project recs first last).map
        (fun row => (row.project_id, row.user_email, row.month))) ∧
    (∀ dr ∈ generate_bq_jobs_costs_detail recs first last,
      ∃ r' ∈ filteredRecords recs first last, dr = mkDetailRow r') := by
  refine ⟨?_, fun hf => ⟨?_, ?_⟩, fun dr hdr => ?_⟩
  · unfold filteredRecords
    rw [List.mem_filter]
    simp [h, tsLeB, and_assoc]
  · unfold generate_bq_jobs_costs_detail
    exact (List.mem_insertionSort detailLe).mpr (List.mem_map_of_mem mkDetailRow hf)
  · have hmap : (generate_bq_jobs_costs_per_project recs first last).map
        (fun row => (row.project_id, row.user_email, row.month)) =
        ((filteredRecords recs first last).map recKey).dedup := by
      simp only [generate_bq_jobs_costs_per_project, List.map_map]
      exact List.map_id _
    rw [hmap, List.mem_dedup]
    exact List.mem_map_of_mem recKey hf
  · unfold generate_bq_jobs_costs_detail at hdr
    rw [List.mem_insertionSort, List.mem_map] at hdr
    obtain ⟨r', hr', rfl⟩ := hdr
    exact ⟨r', hr', rfl⟩

/-- Counterexample for C6 as stated: a DONE query that started at noon of
the period's last day (2024-02-29 12:00, squarely inside the previous
calendar month) is excluded from both reports, because the `BETWEEN` upper
bound is midnight of 2024-02-29. -/
theorem cost_reports_inclusion_cex :
    recNoon.job_type = "QUERY" ∧ recNoon.state = "DONE" ∧
    recNoon.start_time.date = (resolve_previous_month ⟨2024, 3, 15⟩).last_day ∧
    generate_bq_jobs_costs_detail [recNoon] (resolve_previous_month ⟨2024, 3, 15⟩).first_day
      (resolve_previous_month ⟨2024, 3, 15⟩).last_day = [] ∧
    generate_bq_jobs_costs_per_project [recNoon] (resolve_previous_month ⟨2024, 3, 15⟩).first_day
      (resolve_previous_month ⟨2024, 3, 15⟩).last_day = [] := by
  refine ⟨rfl, rfl, by decide, by decide, by decide⟩

/-- Witness for the amended C6 at a mid-month record. -/
theorem cost_reports_inclusion_witness :
    recMid ∈ ([recMid] : List UsageRecord) ∧
    (recMid ∈ filteredRecords [recMid] ⟨2024, 2, 1⟩ ⟨2024, 2, 29⟩ ↔
      (recMid.job_type = "QUERY" ∧ recMid.state = "DONE" ∧
        tsLe (midnightUTC ⟨2024, 2, 1⟩) recMid.start_time ∧
        tsLe recMid.start_time (midnightUTC ⟨2024, 2, 29⟩))) :=
  ⟨List.Mem.head _,
    (cost_reports_inclusion [recMid] ⟨2024, 2, 1⟩ ⟨2024, 2, 29⟩ recMid (List.Mem.head _)).1⟩

/-! ## C7: ordering of the detail report -/

theorem chListLe_total (as bs : List Char) : (chListLe as bs || chListLe bs as) = true := by
  induction as generalizing bs with
  | nil => simp [chListLe]
  | cons a as ih =>
    cases bs with
    | nil => simp [chListLe]
    | cons b bs =>
      simp only [chListLe, Bool.or_eq_true, Bool.and_eq_true, decide_eq_true_eq, beq_iff_eq]
      rcases Nat.lt_trichotomy a.toNat b.toNat with h | h | h
      · exact Or.inl (Or.inl h)
      · rcases Bool.or_eq_true_iff.mp (ih bs) with h2 | h2
        · exact Or.inl (Or.inr ⟨h, h2⟩)
        · exact Or.inr (Or.inr ⟨h.symm, h2⟩)
      · exact Or.inr (Or.inl h)

theorem chListLe_trans (as bs cs : List Char) (h1 : chListLe as bs = true)
    (h2 : chListLe bs cs = true) : chListLe as cs = true := by
  induction as generalizing bs cs with
  | nil => simp [chListLe]
  | cons a as ih =>
    cases bs with
    | nil => simp [chListLe] at h1
    | cons b bs =>
      cases cs with
      | nil => simp [chListLe] at h2
      | cons c cs =>
        simp only [chListLe, Bool.or_eq_true, Bool.and_eq_true, decide_eq_true_eq,
          beq_iff_eq] at h1 h2 ⊢
        rcases h1 with h1 | ⟨h1e, h1r⟩ <;> rcases h2 with h2 | ⟨h2e, h2r⟩
        · exact Or.inl (by omega)
        · exact Or.inl (by omega)
        · exact Or.inl (by omega)
        · exact Or.inr ⟨by omega, ih bs cs h1r h2r⟩

theorem strLe_total (s t : String) : (strLe s t || strLe t s) = true :=
  chListLe_total s.data t.data

theorem strLe_trans (s t u : String) (h1 : strLe s t = true) (h2 : strLe t u = true) :
    strLe s u = true :=
  chListLe_trans s.data t.data u.data h1 h2

theorem tsLeB_total (a b : Timestamp) : (tsLeB a b || tsLeB b a) = true := by
  rw [Bool.or_eq_true]
  simp only [tsLeB, decide_eq_true_eq]
  unfold tsLe
  omega

theorem tsLeB_trans (a b c : Timestamp) (h1 : tsLeB a b = true) (h2 : tsLeB b c = true) :
    tsLeB a c = true := by
  simp only [tsLeB, decide_eq_true_eq] at h1 h2 ⊢
  unfold tsLe at h1 h2 ⊢
  omega

theorem lexCombine_total {α : Type} (la lb : α → α → Bool)
    (hla : ∀ x y, (la x y || la y x) = true) (hlb : ∀ x y, (lb x y || lb y x) = true)
    (x y : α) : (lexCombine la lb x y || lexCombine la lb y x) = true := by
  unfold lexCombine
  cases hxy : la x y <;> cases hyx : la y x <;> simp [hxy, hyx]
  · have := hla x y
    rw [hxy, hyx] at this
    simp at this
  · have := hlb x y
    rw [Bool.or_eq_true] at this
    exact this

theorem lexCombine_trans {α : Type} (la lb : α → α → Bool)
    (hla : ∀ x y z, la x y = true → la y z = true → la x z = true)
    (hlb : ∀ x y z, lb x y = true → lb y z = true → lb x z = true)
    (x y z : α) (h1 : lexCombine la lb x y = true) (h2 : lexCombine la lb y z = true) :
    lexCombine la lb x z = true := by
  unfold lexCombine at h1 h2 ⊢
  simp only [Bool.and_eq_true, Bool.or_eq_true, Bool.not_eq_true'] at h1 h2 ⊢
  obtain ⟨hxy, h1'⟩ := h1
  obtain ⟨hyz, h2'⟩ := h2
  refine ⟨hla _ _ _ hxy hyz, ?_⟩
  by_cases hzx : la z x = true
  · have hyx : la y x = true := hla _ _ _ hyz hzx
    have hzy : la z y = true := hla _ _ _ hzx hxy
    rcases h1' with h | hbxy
    · rw [hyx] at h; exact absurd h (by simp)
    rcases h2' with h | hbyz
    · rw [hzy] at h; exact absurd h (by simp)
    exact Or.inr (hlb _ _ _ hbxy hbyz)
  · exact Or.inl (by simpa using hzx)

instance : IsTotal DetailRow detailLe :=
  ⟨fun a b => by
    unfold detailLe detailLeB
    exact Bool.or_eq_true_iff.mp
      (lexCombine_total _ _ (fun x y => strLe_total x.project_id y.project_id)
        (lexCombine_total _ _ (fun x y => tsLeB_total x.start_time y.start_time)
          (fun x y => strLe_total x.user_email y.user_email)) a b)⟩

instance : IsTrans DetailRow detailLe :=
  ⟨fun a b c h1 h2 => by
    unfold detailLe detailLeB at h1 h2 ⊢
    exact lexCombine_trans _ _
      (fun x y z => strLe_trans x.project_id y.project_id z.project_id)
      (lexCombine_trans _ _
        (fun x y z => tsLeB_trans x.start_time y.start_time z.start_time)
        (fun x y z => strLe_trans x.user_email y.user_email z.user_email))
      a b c h1 h2⟩

/-- C7 (confirmed): for every input dataset — ordered or not — the rows of
the per-query detail report are sorted ascending by the lexicographic key
`(project_id, start_time, user_email)` (the order `detailLe`). -/
theorem detail_report_sorted (recs : List UsageRecord) (first last : Date) :
    List.Sorted detailLe (generate_bq_jobs_costs_detail recs first last) :=
  List.sorted_insertionSort detailLe _

/-! ## C1: the idempotency gate decision -/

/-- C1 (confirmed): for every destination state, table name and period key,
`can_insert` returns true when the table does not exist; true when it exists
with zero rows whose `month` equals the key; and false when it holds one or
more such rows. -/
theorem can_insert_gate (d : Dest) (table_name key : String) :
    (d table_name = none → can_insert d table_name key = true) ∧
    (∀ rows, d table_name = some rows →
      rows.countP (fun r => r.month == key) = 0 → can_insert d table_name key = true) ∧
    (∀ rows, d table_name = some rows →
      0 < rows.countP (fun r => r.month == key) → can_insert d table_name key = false) := by
  refine ⟨fun h => ?_, fun rows h hc => ?_, fun rows h hc => ?_⟩ <;>
    unfold can_insert <;> rw [h]
  · simp [hc]
  · simp only [beq_eq_false_iff_ne]
    omega

/-- Witness for C1, matching the spec's §8 example: a table holding a row of
month "202402" denies key "202402" and allows key "202403"; an absent table
allows. -/
theorem can_insert_gate_witness :
    (destEmpty "t" = none ∧ can_insert destEmpty "t" "202402" = true) ∧
    (destEx "t" = some [⟨"202402", []⟩] ∧
      can_insert destEx "t" "202402" = false ∧ can_insert destEx "t" "202403" = true) :=
  ⟨⟨rfl, (can_insert_gate destEmpty "t" "202402").1 rfl⟩,
   ⟨by decide,
    (can_insert_gate destEx "t" "202402").2.2 [⟨"202402", []⟩] (by decide) (by decide),
    (can_insert_gate destEx "t" "202403").2.1 [⟨"202402", []⟩] (by decide) (by decide)⟩⟩

/-! ## C8: the gate's exception policy -/

/-- C8 (confirmed): the gate swallows exactly the `NotFound` (table-absent)
condition — from the existence check or from the month-lookup query, whose
shared `try` block converts it to the boolean true — while every other
exception of either call propagates; on a fault-free run it returns
`can_insert` of the (unmodified) destination state. -/
theorem gate_error_policy (d : Dest) (table_name key : String) :
    (can_insert_data d none none table_name key = .ok (can_insert d table_name key)) ∧
    (∀ qF, can_insert_data d (some .notFound) qF table_name key = .ok true) ∧
    (∀ qF msg, can_insert_data d (some (.otherErr msg)) qF table_name key =
      .error (.otherErr msg)) ∧
    (∀ rows, d table_name = some rows →
      can_insert_data d none (some .notFound) table_name key = .ok true) ∧
    (∀ rows msg, d table_name = some rows →
      can_insert_data d none (some (.otherErr msg)) table_name key =
        .error (.otherErr msg)) := by
  refine ⟨?_, fun qF => rfl, fun qF msg => rfl, fun rows h => ?_, fun rows msg h => ?_⟩
  · unfold can_insert_data bq_get_table bq_query_month can_insert
    cases hd : d table_name <;> simp [hd]
  · unfold can_insert_data bq_get_table bq_query_month
    rw [h]
  · unfold can_insert_data bq_get_table bq_query_month
    rw [h]

/-- Witness for C8: fault-free agreement with `can_insert`, and concrete
propagation/swallowing on the `destEx` state. -/
theorem gate_error_policy_witness :
    can_insert_data destEx none none "t" "202402" = .ok (can_insert destEx "t" "202402") ∧
    can_insert_data destEx (some .notFound) none "t" "202402" = .ok true ∧
    can_insert_data destEx (some (.otherErr "io down")) none "t" "202402" =
      .error (.otherErr "io down") ∧
    can_insert_data destEx none (some .notFound) "t" "202402" = .ok true ∧
    can_insert_data destEx none (some (.otherErr "query failed")) "t" "202402" =
      .error (.otherErr "query failed") :=
  ⟨(gate_error_policy destEx "t" "202402").1,
   (gate_error_policy destEx "t" "202402").2.1 none,
   (gate_error_policy destEx "t" "202402").2.2.1 none "io down",
   (gate_error_policy destEx "t" "202402").2.2.2.1 [⟨"202402", []⟩] (by decide),
   (gate_error_policy destEx "t" "202402").2.2.2.2 [⟨"202402", []⟩] "query failed" (by decide)⟩

/-! ## Pipeline lemmas: framing, saturation, idempotence -/

theorem can_insert_congr {d₁ d₂ : Dest} (name key : String) (h : d₂ name = d₁ name) :
    can_insert d₂ name key = can_insert d₁ name key := by
  unfold can_insert
  rw [h]

theorem store_df_at (d : Dest) (name : String) (rows : List Row) :
    store_df_in_bq d name rows name = some (((d name).getD []) ++ rows) := by
  unfold store_df_in_bq
  simp

theorem store_df_frame (d : Dest) (name n : String) (rows : List Row) (h : n ≠ name) :
    store_df_in_bq d name rows n = d n := by
  unfold store_df_in_bq
  simp [h]

theorem stepOne_frame (d : Dest) (name n : String) (rows : List Row) (key : String)
    (h : n ≠ name) : stepOne d name rows key n = d n := by
  unfold stepOne
  split
  · exact store_df_frame d name n rows h
  · rfl

/-- Storing a nonempty batch whose rows all carry the period key makes the
gate deny that table for that key. -/
theorem month_key_denies (d : Dest) (name key : String) (rows : List Row)
    (hne : rows ≠ []) (hmonth : ∀ r ∈ rows, r.month = key) :
    can_insert (store_df_in_bq d name rows) name key = false := by
  unfold can_insert
  rw [store_df_at]
  rcases rows with _ | ⟨r, rs⟩
  · exact absurd rfl hne
  have hr : r.month = key := hmonth r (by simp)
  rw [beq_eq_false_iff_ne]
  simp [List.countP_append, List.countP_cons, hr]

/-- After its own gate-and-store step, a report whose rows all carry the
period key is saturated: running the same step again changes nothing. -/
theorem saturation_after_step (d : Dest) (name key : String) (rows : List Row)
    (hmonth : ∀ r ∈ rows, r.month = key) :
    ∀ n, stepOne (stepOne d name rows key) name rows key n = stepOne d name rows key n := by
  intro n
  by_cases hg : can_insert d name key = true
  · have h1 : stepOne d name rows key = store_df_in_bq d name rows := by
      simp [stepOne, hg]
    rw [h1]
    by_cases hne : rows = []
    · subst hne
      have hg' : can_insert (store_df_in_bq d name []) name key = true := by
        unfold can_insert at hg ⊢
        rw [store_df_at]
        cases hd : d name with
        | none => simp
        | some old =>
          rw [hd] at hg
          simpa using hg
      simp only [stepOne, hg', if_true]
      by_cases hn : n = name
      · subst hn
        rw [store_df_at, store_df_at]
        simp
      · exact store_df_frame _ _ _ _ hn
    · have hg' := month_key_denies d name key rows hne hmonth
      simp [stepOne, hg']
  · have h1 : stepOne d name rows key = d := by
      simp [stepOne, hg]
    simp only [h1]

/-- Saturation of a step depends only on the stepped table's contents. -/
theorem step_id_congr (d₁ d₂ : Dest) (name key : String) (rows : List Row)
    (hsame : d₂ name = d₁ name)
    (hsat : ∀ n, stepOne d₁ name rows key n = d₁ n) :
    ∀ n, stepOne d₂ name rows key n = d₂ n := by
  intro n
  have hg : can_insert d₂ name key = can_insert d₁ name key := can_insert_congr name key hsame
  by_cases h : can_insert d₁ name key = true
  · have h2 : can_insert d₂ name key = true := by rw [hg, h]
    simp only [stepOne, h2, if_true]
    by_cases hn : n = name
    · subst hn
      have hs := hsat n
      simp only [stepOne, h, if_true] at hs
      rw [store_df_at] at hs ⊢
      rw [hsame, hs]
    · exact store_df_frame _ _ _ _ hn
  · simp [stepOne, hg, h]

theorem run_pure_frame (reps : List (String × List Row)) (d : Dest) (key n : String)
    (h : ∀ p ∈ reps, p.1 ≠ n) : run_pure d reps key n = d n := by
  induction reps generalizing d with
  | nil => rfl
  | cons p rest ih =>
    obtain ⟨name, rows⟩ := p
    show run_pure (stepOne d name rows key) rest key n = d n
    rw [ih _ (fun q hq => h q (List.mem_cons_of_mem _ hq))]
    exact stepOne_frame d name n rows key (Ne.symm (h (name, rows) (by simp)))

theorem run_pure_congr (reps : List (String × List Row)) (d₁ d₂ : Dest) (key : String)
    (h : ∀ n, d₂ n = d₁ n) :
    ∀ n, run_pure d₂ reps key n = run_pure d₁ reps key n := by
  induction reps generalizing d₁ d₂ with
  | nil => exact h
  | cons p rest ih =>
    obtain ⟨name, rows⟩ := p
    show ∀ n, run_pure (stepOne d₂ name rows key) rest key n =
      run_pure (stepOne d₁ name rows key) rest key n
    apply ih
    intro m
    have hg : can_insert d₂ name key = can_insert d₁ name key := can_insert_congr name key (h name)
    by_cases hc : can_insert d₁ name key = true
    · simp only [stepOne, hg, hc, if_true]
      by_cases hm : m = name
      · subst hm
        rw [store_df_at, store_df_at, h m]
      · rw [store_df_frame _ _ _ _ hm, store_df_frame _ _ _ _ hm]
        exact h m
    · simp [stepOne, hg, hc, h m]

/-- After the pipeline has run, each of its reports (rows all carrying the
period key, table names pairwise distinct) is saturated. -/
theorem run_pure_saturates (reps : List (String × List Row)) (d : Dest) (key : String)
    (hmonth : ∀ p ∈ reps, ∀ r ∈ p.2, r.month = key)
    (hdist : reps.Pairwise (fun p q => p.1 ≠ q.1)) :
    ∀ p ∈ reps, ∀ n, stepOne (run_pure d reps key) p.1 p.2 key n = run_pure d reps key n := by
  induction reps generalizing d with
  | nil => exact fun p hp => absurd hp (List.not_mem_nil p)
  | cons q rest ih =>
    obtain ⟨name, rows⟩ := q
    intro p hp n
    rw [List.pairwise_cons] at hdist
    obtain ⟨hd1, hd2⟩ := hdist
    rcases List.mem_cons.mp hp with rfl | hp'
    · show stepOne (run_pure (stepOne d name rows key) rest key) name rows key n = _
      refine step_id_congr (stepOne d name rows key) _ name key rows ?_ ?_ n
      · exact run_pure_frame rest _ key name (fun q hq => Ne.symm (hd1 q hq))
      · exact saturation_after_step d name key rows (hmonth (name, rows) (by simp))
    · exact ih (stepOne d name rows key)
        (fun q hq => hmonth q (List.mem_cons_of_mem _ hq)) hd2 p hp' n

/-- Running the pipeline over reports that are all saturated changes
nothing. -/
theorem run_pure_of_saturated (reps : List (String × List Row)) (d : Dest) (key : String)
    (hsat : ∀ p ∈ reps, ∀ n, stepOne d p.1 p.2 key n = d n) :
    ∀ n, run_pure d reps key n = d n := by
  induction reps generalizing d with
  | nil => exact fun _ => rfl
  | cons q rest ih =>
    intro n
    obtain ⟨name, rows⟩ := q
    show run_pure (stepOne d name rows key) rest key n = d n
    rw [run_pure_congr rest d (stepOne d name rows key) key (hsat (name, rows) (by simp)) n]
    exact ih d (fun p hp => hsat p (List.mem_cons_of_mem _ hp)) n

/-- Core idempotence: running the pure pipeline twice equals running it
once, table by table. -/
theorem run_pure_twice (reps : List (String × List Row)) (d : Dest) (key : String)
    (hmonth : ∀ p ∈ reps, ∀ r ∈ p.2, r.month = key)
    (hdist : reps.Pairwise (fun p q => p.1 ≠ q.1)) :
    ∀ n, run_pure (run_pure d reps key) reps key n = run_pure d reps key n :=
  run_pure_of_saturated reps (run_pure d reps key) key
    (run_pure_saturates reps d key hmonth hdist)

/-- A table the gate denies is never touched by a pipeline run. -/
theorem run_pure_preserves_denied (reps : List (String × List Row)) (d : Dest)
    (key name : String) (h : can_insert d name key = false) :
    run_pure d reps key name = d name := by
  induction reps generalizing d with
  | nil => rfl
  | cons q rest ih =>
    obtain ⟨nm, rows⟩ := q
    show run_pure (stepOne d nm rows key) rest key name = d name
    by_cases hn : nm = name
    · subst hn
      have hstep : stepOne d nm rows key = d := by
        simp [stepOne, h]
      rw [hstep]
      exact ih d h
    · have hsame : stepOne d nm rows key name = d name :=
        stepOne_frame d nm name rows key (Ne.symm hn)
      have h' : can_insert (stepOne d nm rows key) name key = false := by
        rw [can_insert_congr name key hsame]
        exact h
      rw [ih _ h']
      exact hsame

/-- After a run, the gate denies every report that produced at least one
row. -/
theorem run_pure_denies_nonempty (reps : List (String × List Row)) (d : Dest) (key : String)
    (hmonth : ∀ p ∈ reps, ∀ r ∈ p.2, r.month = key)
    (hdist : reps.Pairwise (fun p q => p.1 ≠ q.1)) :
    ∀ p ∈ reps, p.2 ≠ [] → can_insert (run_pure d reps key) p.1 key = false := by
  intro p hp hne
  have hsat := run_pure_saturates reps d key hmonth hdist p hp
  by_contra hgate
  have hg : can_insert (run_pure d reps key) p.1 key = true := by
    cases hcc : can_insert (run_pure d reps key) p.1 key
    · exact absurd hcc hgate
    · rfl
  have hs := hsat p.1
  simp only [stepOne, hg, if_true] at hs
  rw [store_df_at] at hs
  cases hfin : run_pure d reps key p.1 with
  | none =>
    rw [hfin] at hs
    exact Option.noConfusion hs
  | some l =>
    rw [hfin] at hs
    simp only [Option.getD_some, Option.some.injEq] at hs
    have hlen : l.length + p.2.length = l.length := by
      conv_rhs => rw [← hs]
      rw [List.length_append]
    have h2 : p.2.length = 0 := by omega
    exact hne (List.eq_nil_of_length_eq_zero h2)

/-- A fault-free `run_reports` is the pure pipeline and raises nothing. -/
theorem run_reports_ok (reps : List (String × List Row)) (d : Dest) (key : String) :
    run_reports d (reps.map (fun p => (p.1, Except.ok p.2))) key =
      (run_pure d reps key, none) := by
  induction reps generalizing d with
  | nil => rfl
  | cons q rest ih =>
    obtain ⟨name, rows⟩ := q
    by_cases hg : can_insert d name key = true
    · show (if can_insert d name key then _ else _) = _
      rw [if_pos hg]
      show run_reports (store_df_in_bq d name rows) (rest.map _) key = _
      rw [ih]
      have : stepOne d name rows key = store_df_in_bq d name rows := by
        simp [stepOne, hg]
      show _ = (run_pure (stepOne d name rows key) rest key, none)
      rw [this]
    · have hg' : can_insert d name key = false := by
        cases h : can_insert d name key
        · rfl
        · exact absurd h hg
      show (if can_insert d name key then _ else _) = _
      rw [if_neg (by rw [hg']; exact Bool.false_ne_true)]
      rw [ih]
      have : stepOne d name rows key = d := by
        simp [stepOne, hg']
      show _ = (run_pure (stepOne d name rows key) rest key, none)
      rw [this]

/-! ## Generator-level lemmas feeding the pipeline theorems -/

/-- When every tracked project's warehouse table is readable, the storage
scan succeeds, emits one row per project, and stamps every row with the
period key. -/
theorem storage_ok (tables : String → Except BqError Nat) (blobs : String → List Nat)
    (pid mtn : String) (projects : List String) (key : String)
    (h : ∀ p ∈ projects, ∃ nb, tables (mkTableId pid p mtn) = .ok nb) :
    ∃ srows, generate_storage_usage tables blobs pid mtn projects key = .ok srows ∧
      srows.length = projects.length ∧ ∀ r ∈ srows, r.month = key := by
  induction projects with
  | nil => exact ⟨[], rfl, rfl, by simp⟩
  | cons p rest ih =>
    obtain ⟨nb, hnb⟩ := h p (by simp)
    obtain ⟨srows, hs, hlen, hm⟩ := ih (fun q hq => h q (List.mem_cons_of_mem _ hq))
    refine ⟨⟨p, key, (blobs p).sum, nb⟩ :: srows, ?_, by simp [hlen], ?_⟩
    · show (match tables (mkTableId pid p mtn) with
        | Except.error e => Except.error e
        | Except.ok bq_project_size =>
          match generate_storage_usage tables blobs pid mtn rest key with
          | Except.error e => Except.error e
          | Except.ok rows =>
            Except.ok ((⟨p, key, (blobs p).sum, bq_project_size⟩ : StorageRow) :: rows)) = _
      rw [hnb, hs]
    · intro r hr
      rcases List.mem_cons.mp hr with rfl | hr'
      · rfl
      · exact hm r hr'

/-- If some tracked project's table read raises, the whole storage scan
raises (the exception is not caught inside the loop). -/
theorem storage_missing_table_errors (tables : String → Except BqError Nat)
    (blobs : String → List Nat) (pid mtn : String) (projects : List String)
    (key : String) (p : String) (hp : p ∈ projects)
    (hmiss : tables (mkTableId pid p mtn) = .error .notFound) :
    ∃ e, generate_storage_usage tables blobs pid mtn projects key = .error e := by
  induction projects with
  | nil => exact absurd hp (List.not_mem_nil p)
  | cons q rest ih =>
    cases hq : tables (mkTableId pid q mtn) with
    | error e =>
      refine ⟨e, ?_⟩
      show (match tables (mkTableId pid q mtn) with
        | Except.error e => Except.error e
        | Except.ok bq_project_size =>
          match generate_storage_usage tables blobs pid mtn rest key with
          | Except.error e => Except.error e
          | Except.ok rows =>
            Except.ok ((⟨q, key, (blobs q).sum, bq_project_size⟩ : StorageRow) :: rows)) = _
      rw [hq]
    | ok nb =>
      rcases List.mem_cons.mp hp with rfl | hp'
      · rw [hq] at hmiss
        exact Except.noConfusion hmiss
      · obtain ⟨e, he⟩ := ih hp'
        refine ⟨e, ?_⟩
        show (match tables (mkTableId pid q mtn) with
          | Except.error e => Except.error e
          | Except.ok bq_project_size =>
            match generate_storage_usage tables blobs pid mtn rest key with
            | Except.error e => Except.error e
            | Except.ok rows =>
              Except.ok ((⟨q, key, (blobs q).sum, bq_project_size⟩ : StorageRow) :: rows)) = _
        rw [hq, he]

/-- Every record the shared filter admits carries the period key as its
`month`. -/
theorem filtered_month (recs : List UsageRecord) (today : Date) (hv : validDate today) :
    ∀ r ∈ filteredRecords recs (date_first_day_previous_month today)
      (date_last_day_previous_month today), month_of r = str_last_month today := by
  intro r hr
  unfold filteredRecords at hr
  rw [List.mem_filter] at hr
  have hb := hr.2
  simp only [Bool.and_eq_true, tsLeB, decide_eq_true_eq] at hb
  exact month_sandwich today hv r.start_time hb.1.2 hb.2

/-- All stored detail-report rows carry the period key. -/
theorem detail_rows_month (recs : List UsageRecord) (today : Date) (hv : validDate today) :
    ∀ row ∈ (generate_bq_jobs_costs_detail recs (date_first_day_previous_month today)
      (date_last_day_previous_month today)).map detailRowToRow,
      row.month = str_last_month today := by
  intro row hrow
  rw [List.mem_map] at hrow
  obtain ⟨dr, hdr, rfl⟩ := hrow
  unfold generate_bq_jobs_costs_detail at hdr
  rw [List.mem_insertionSort, List.mem_map] at hdr
  obtain ⟨r, hr, rfl⟩ := hdr
  exact filtered_month recs today hv r hr

/-- All stored per-project summary rows carry the period key. -/
theorem pp_rows_month (recs : List UsageRecord) (today : Date) (hv : validDate today) :
    ∀ row ∈ (generate_bq_jobs_costs_per_project recs (date_first_day_previous_month today)
      (date_last_day_previous_month today)).map perProjectRowToRow,
      row.month = str_last_month today := by
  intro row hrow
  rw [List.mem_map] at hrow
  obtain ⟨pr, hpr, rfl⟩ := hrow
  simp only [generate_bq_jobs_costs_per_project, List.mem_map] at hpr
  obtain ⟨k, hk, rfl⟩ := hpr
  rw [List.mem_dedup, List.mem_map] at hk
  obtain ⟨r, hr, rfl⟩ := hk
  exact filtered_month recs today hv r hr

/-! ## C9: a missing warehouse table aborts the run -/

/-- C9 (confirmed): if a tracked project's warehouse table is missing, the
storage-usage generator never returns a row list (the dataset is not
silently skipped), and — whenever the gate lets the storage report run —
the whole invocation aborts with an error, the destination untouched and
the two remaining cost reports never stored. -/
theorem storage_missing_table_aborts (recs : List UsageRecord)
    (tables : String → Except BqError Nat) (blobs : String → List Nat)
    (pid mtn : String) (projects : List String) (today : Date) (d : Dest) (p : String)
    (hp : p ∈ projects) (hmiss : tables (mkTableId pid p mtn) = .error .notFound) :
    (∀ rows, generate_storage_usage tables blobs pid mtn projects
      (str_last_month today) ≠ .ok rows) ∧
    (can_insert d "storage_usage" (str_last_month today) = true →
      ∃ e, Orchestrator.main recs tables blobs pid mtn projects today d = (d, some e)) := by
  obtain ⟨e, he⟩ := storage_missing_table_errors tables blobs pid mtn projects
    (str_last_month today) p hp hmiss
  constructor
  · intro rows hok
    rw [he] at hok
    exact Except.noConfusion hok
  · intro hg
    refine ⟨e, ?_⟩
    show run_reports d (mainReports recs tables blobs pid mtn projects today)
      (str_last_month today) = _
    unfold mainReports
    rw [he]
    simp only [run_reports, hg, if_true, Except.map]

/-- Witness for C9: one tracked project whose table lookup raises
`NotFound`, against an empty destination (gate allows). -/
theorem storage_missing_table_aborts_witness :
    "p1" ∈ ["p1"] ∧ tablesMissing (mkTableId "pid" "p1" "mt") = .error .notFound ∧
    can_insert destEmpty "storage_usage" (str_last_month ⟨2024, 3, 15⟩) = true ∧
    (∃ e, Orchestrator.main [] tablesMissing blobsEx "pid" "mt" ["p1"] ⟨2024, 3, 15⟩ destEmpty =
      (destEmpty, some e)) :=
  ⟨List.Mem.head _, rfl, rfl,
    (storage_missing_table_aborts [] tablesMissing blobsEx "pid" "mt" ["p1"] ⟨2024, 3, 15⟩
      destEmpty "p1" (List.Mem.head _) rfl).2 rfl⟩

/-! ## C2: idempotence of the full pipeline -/

/-- C2 as amended (the claim's "second run's reports are all skipped" fails
for a report that generated zero rows, see the counterexample; everything
else holds): on fixed upstream data with all tracked tables readable,
(1) a run raises nothing; (2) running the pipeline twice leaves exactly the
destination contents of one run, table by table; (3) any table the gate
denies is left untouched by a run — so for a given table at most one batch
of rows ever carries a given month key; and (4) provided at least one
project is tracked and at least one record passes the filter, the gate
denies all three report tables after the first run, so the second run's
reports are all skipped. -/
theorem pipeline_idempotent (recs : List UsageRecord)
    (tables : String → Except BqError Nat) (blobs : String → List Nat)
    (pid mtn : String) (projects : List String) (today : Date) (d : Dest)
    (hv : validDate today)
    (hok : ∀ p ∈ projects, ∃ nb, tables (mkTableId pid p mtn) = .ok nb) :
    ((Orchestrator.main recs tables blobs pid mtn projects today d).2 = none) ∧
    (∀ n, (Orchestrator.main recs tables blobs pid mtn projects today
        (Orchestrator.main recs tables blobs pid mtn projects today d).1).1 n =
      (Orchestrator.main recs tables blobs pid mtn projects today d).1 n) ∧
    (∀ name, can_insert d name (str_last_month today) = false →
      (Orchestrator.main recs tables blobs pid mtn projects today d).1 name = d name) ∧
    (projects ≠ [] →
      filteredRecords recs (date_first_day_previous_month today)
        (date_last_day_previous_month today) ≠ [] →
      can_insert (Orchestrator.main recs tables blobs pid mtn projects today d).1
          "storage_usage" (str_last_month today) = false ∧
        can_insert (Orchestrator.main recs tables blobs pid mtn projects today d).1
          "bq_jobs_costs_detail" (str_last_month today) = false ∧
        can_insert (Orchestrator.main recs tables blobs pid mtn projects today d).1
          "bq_jobs_costs_per_project" (str_last_month today) = false) := by
  obtain ⟨srows, hs, hlen, hsm⟩ := storage_ok tables blobs pid mtn projects
    (str_last_month today) hok
  have hmain : ∀ d' : Dest, Orchestrator.main recs tables blobs pid mtn projects today d' =
      (run_pure d' (mainPureReports recs srows (date_first_day_previous_month today)
        (date_last_day_previous_month today)) (str_last_month today), none) := by
    intro d'
    show run_reports d' (mainReports recs tables blobs pid mtn projects today)
      (str_last_month today) = _
    unfold mainReports
    rw [hs]
    exact run_reports_ok (mainPureReports recs srows (date_first_day_previous_month today)
      (date_last_day_previous_month today)) d' (str_last_month today)
  have hmonth : ∀ p ∈ mainPureReports recs srows (date_first_day_previous_month today)
      (date_last_day_previous_month today), ∀ r ∈ p.2, r.month = str_last_month today := by
    intro p hp r hr
    simp only [mainPureReports, List.mem_cons, List.not_mem_nil, or_false] at hp
    rcases hp with rfl | rfl | rfl
    · rw [List.mem_map] at hr
      obtain ⟨sr, hsr, rfl⟩ := hr
      exact hsm sr hsr
    · exact detail_rows_month recs today hv r hr
    · exact pp_rows_month recs today hv r hr
  have hdist : (mainPureReports recs srows (date_first_day_previous_month today)
      (date_last_day_previous_month today)).Pairwise (fun p q => p.1 ≠ q.1) := by
    refine List.Pairwise.cons (fun q hq => ?_)
      (List.Pairwise.cons (fun q hq => ?_) (List.Pairwise.cons (fun q hq => ?_) .nil))
    · simp only [mainPureReports, List.mem_cons, List.not_mem_nil, or_false] at hq
      rcases hq with rfl | rfl
      · show "storage_usage" ≠ "bq_jobs_costs_detail"
        decide
      · show "storage_usage" ≠ "bq_jobs_costs_per_project"
        decide
    · simp only [mainPureReports, List.mem_singleton] at hq
      subst hq
      show "bq_jobs_costs_detail" ≠ "bq_jobs_costs_per_project"
      decide
    · exact absurd hq (List.not_mem_nil q)
  refine ⟨by rw [hmain d], ?_, ?_, ?_⟩
  · intro n
    rw [hmain d]
    rw [hmain (run_pure d (mainPureReports recs srows (date_first_day_previous_month today)
      (date_last_day_previous_month today)) (str_last_month today))]
    exact run_pure_twice _ d (str_last_month today) hmonth hdist n
  · intro name hden
    rw [hmain d]
    exact run_pure_preserves_denied _ d (str_last_month today) name hden
  · intro hproj hfil
    rw [hmain d]
    have hd1 : srows.map storageRowToRow ≠ [] := by
      intro hnil
      rw [List.map_eq_nil_iff] at hnil
      rw [hnil] at hlen
      exact hproj (List.length_eq_zero.mp hlen.symm)
    have hd2 : (generate_bq_jobs_costs_detail recs (date_first_day_previous_month today)
        (date_last_day_previous_month today)).map detailRowToRow ≠ [] := by
      intro hnil
      rw [List.map_eq_nil_iff] at hnil
      unfold generate_bq_jobs_costs_detail at hnil
      have := congrArg List.length hnil
      rw [List.length_insertionSort, List.length_map] at this
      exact hfil (List.eq_nil_of_length_eq_zero this)
    have hd3 : (generate_bq_jobs_costs_per_project recs (date_first_day_previous_month today)
        (date_last_day_previous_month today)).map perProjectRowToRow ≠ [] := by
      intro hnil
      rw [List.map_eq_nil_iff] at hnil
      rcases hfr : filteredRecords recs (date_first_day_previous_month today)
        (date_last_day_previous_month today) with _ | ⟨r, rs⟩
      · exact hfil hfr
      have hkm : recKey r ∈ ((filteredRecords recs (date_first_day_previous_month today)
          (date_last_day_previous_month today)).map recKey).dedup := by
        rw [List.mem_dedup, List.mem_map]
        exact ⟨r, by rw [hfr]; exact List.Mem.head _, rfl⟩
      have hpp : ((filteredRecords recs (date_first_day_previous_month today)
          (date_last_day_previous_month today)).map recKey).dedup = [] := by
        have hl := congrArg List.length hnil
        simp only [generate_bq_jobs_costs_per_project, List.length_map,
          List.length_nil] at hl
        exact List.eq_nil_of_length_eq_zero hl
      rw [hpp] at hkm
      exact List.not_mem_nil _ hkm
    refine ⟨?_, ?_, ?_⟩
    · exact run_pure_denies_nonempty _ d _ hmonth hdist
        ("storage_usage", srows.map storageRowToRow) (by simp [mainPureReports]) hd1
    · exact run_pure_denies_nonempty _ d _ hmonth hdist
        ("bq_jobs_costs_detail", (generate_bq_jobs_costs_detail recs
          (date_first_day_previous_month today) (date_last_day_previous_month today)).map
            detailRowToRow) (by simp [mainPureReports]) hd2
    · exact run_pure_denies_nonempty _ d _ hmonth hdist
        ("bq_jobs_costs_per_project", (generate_bq_jobs_costs_per_project recs
          (date_first_day_previous_month today) (date_last_day_previous_month today)).map
            perProjectRowToRow) (by simp [mainPureReports]) hd3

/-- Counterexample for C2 as stated: with fixed upstream data containing no
usage records (a month with no DONE queries) and one tracked project, the
first run succeeds, yet afterwards the gate still allows
`bq_jobs_costs_detail` — the detail report stored zero rows, so on the
second run it is regenerated and re-appended (a no-op), not skipped.  The
"second run's reports are all skipped" part of the claim is therefore
false, although the destination contents are unchanged. -/
theorem pipeline_idempotent_cex :
    (Orchestrator.main [] tablesEx blobsEx "pid" "mt" ["p1"] ⟨2024, 3, 15⟩ destEmpty).2 =
      none ∧
    can_insert (Orchestrator.main [] tablesEx blobsEx "pid" "mt" ["p1"] ⟨2024, 3, 15⟩
      destEmpty).1 "bq_jobs_costs_detail" (str_last_month ⟨2024, 3, 15⟩) = true ∧
    can_insert (Orchestrator.main [] tablesEx blobsEx "pid" "mt" ["p1"] ⟨2024, 3, 15⟩
      destEmpty).1 "bq_jobs_costs_per_project" (str_last_month ⟨2024, 3, 15⟩) = true :=
  ⟨by decide, by decide, by decide⟩

/-- Witness for the amended C2: one in-period record and one tracked
project; the double run leaves the single-run contents and all three gates
deny afterwards. -/
theorem pipeline_idempotent_witness :
    validDate ⟨2024, 3, 15⟩ ∧
    (∀ n, (Orchestrator.main [recMid] tablesEx blobsEx "pid" "mt" ["p1"] ⟨2024, 3, 15⟩
        (Orchestrator.main [recMid] tablesEx blobsEx "pid" "mt" ["p1"] ⟨2024, 3, 15⟩
          destEmpty).1).1 n =
      (Orchestrator.main [recMid] tablesEx blobsEx "pid" "mt" ["p1"] ⟨2024, 3, 15⟩
        destEmpty).1 n) ∧
    can_insert (Orchestrator.main [recMid] tablesEx blobsEx "pid" "mt" ["p1"] ⟨2024, 3, 15⟩
      destEmpty).1 "bq_jobs_costs_detail" (str_last_month ⟨2024, 3, 15⟩) = false :=
  ⟨by decide,
   (pipeline_idempotent [recMid] tablesEx blobsEx "pid" "mt" ["p1"] ⟨2024, 3, 15⟩ destEmpty
     (by decide) (fun p hp => ⟨1000, rfl⟩)).2.1,
   ((pipeline_idempotent [recMid] tablesEx blobsEx "pid" "mt" ["p1"] ⟨2024, 3, 15⟩ destEmpty
     (by decide) (fun p hp => ⟨1000, rfl⟩)).2.2.2 (by decide) (by decide)).2.1⟩
